import Mathlib

/-
Verification of the BOB (Baseline Object Broker) detection-and-calibration
pipeline, shallowly embedded from the JavaScript sources:

  * src/src/opencvUtils.js        (detection passes, calibration engine)
  * src/src/hooks/useDetectionState.jsx (manual polygon builder, session state)

JavaScript numbers are modelled as real numbers; `null` is modelled with
`Option`.  Calls into the OpenCV library (`cv.contourArea`, `cv.arcLength`,
`cv.boundingRect`) are modelled by their documented mathematical contracts on
point lists; the polygon simplification `cv.approxPolyDP` is kept abstract as
a function parameter, since its output is the only thing the surrounding code
consumes.
-/

set_option autoImplicit false

noncomputable section

namespace BOB

/-- A point in image pixel coordinates (`{x, y}` in the source). -/
structure Point where
  x : ℝ
  y : ℝ

/-- An edge of a polygon: ordered pair of vertices plus derived lengths
(`{start, end, pixelLength, realLength}` in the source; `realLength` is
`null` until calibration). -/
structure Edge where
  start : Point
  endPt : Point
  pixelLength : ℝ
  realLength : Option ℝ

/-- An axis-aligned rectangle (`{x, y, width, height}`). -/
structure Rect where
  x : ℝ
  y : ℝ
  width : ℝ
  height : ℝ

/-- One entry of the derived measurement view (`{pixelLength, realLength}`). -/
structure MeasEdge where
  pixelLength : ℝ
  realLength : Option ℝ

/-- The derived measurement view of an object
(`{edges: [...], perimeter}`; `perimeter` is in mm once calibrated). -/
structure Measurements where
  edges : List MeasEdge
  perimeter : Option ℝ

/-- The central entity pushed by `detectContours` in src/src/opencvUtils.js
and by `finishManualObject` in useDetectionState.jsx.  `circularity` is
absent (`none`) on manually built objects, mirroring the missing field in
the source's duck-typed records. -/
structure DetectedObject where
  id : String
  name : String
  color : String
  contour : Rect
  points : List Point
  edges : List Edge
  area : ℝ
  perimeter : ℝ
  isCoin : Bool
  circularity : Option ℝ
  measurements : Measurements

/-- Reference coin diameter in millimeters (`COIN_DIAMETER_MM = 26.5`). -/
def COIN_DIAMETER_MM : ℝ := 26.5

/-- JavaScript `Math.round`: round half up, `Math.round x = ⌊x + 1/2⌋`. -/
def jsRound (x : ℝ) : ℤ := ⌊x + 1/2⌋

/-- Rounding to two decimal places, `Math.round(x * 100) / 100` in the source. -/
def round2 (x : ℝ) : ℝ := (jsRound (x * 100) : ℝ) / 100

/-- Euclidean distance, `calculatePixelDistance` in src/src/opencvUtils.js:
`dx = p2.x - p1.x; dy = p2.y - p1.y; sqrt(dx*dx + dy*dy)`. -/
def calculatePixelDistance (p1 p2 : Point) : ℝ :=
  Real.sqrt ((p2.x - p1.x) * (p2.x - p1.x) + (p2.y - p1.y) * (p2.y - p1.y))

/-- JavaScript `Math.hypot` on two arguments. -/
def hypot (dx dy : ℝ) : ℝ := Real.sqrt (dx * dx + dy * dy)

/-- PPM scale factor, `calculatePPM` in src/src/opencvUtils.js:
`pixelDistance / COIN_DIAMETER_MM`. -/
def calculatePPM (pixelDistance : ℝ) : ℝ := pixelDistance / COIN_DIAMETER_MM

/-- Calibration, `applyPPMToObject` in src/src/opencvUtils.js.  The guard
`if (!ppm || ppm <= 0) return obj` (null, zero or negative scale) is the
`none` branch together with the `p ≤ 0` test; otherwise every edge gets
`realLength = round2(pixelLength / ppm)` and the measurement view gets
`perimeter = round2(perimeter / ppm)`. -/
def applyPPMToObject (obj : DetectedObject) (ppm : Option ℝ) : DetectedObject :=
  match ppm with
  | none => obj
  | some p =>
    if p ≤ 0 then obj
    else
      let updatedEdges := obj.edges.map fun edge =>
        { edge with realLength := some (round2 (edge.pixelLength / p)) }
      let realPerimeter := round2 (obj.perimeter / p)
      { obj with
        edges := updatedEdges
        measurements :=
          { edges := updatedEdges.map fun e => ⟨e.pixelLength, e.realLength⟩
            perimeter := some realPerimeter } }

/-! ### Closed-polygon geometry

The detection loops walk a point list pairing index `j` with
`(j + 1) % length`, i.e. consecutive vertices with a wrap-around from the
last vertex back to the first. -/

/-- Companion of `wrapPairs`: pairs the remaining vertices, closing the
loop back to `first`. -/
def wrapPairsGo (first : Point) : List Point → List (Point × Point)
  | [] => []
  | [q] => [(q, first)]
  | q :: r :: rest => (q, r) :: wrapPairsGo first (r :: rest)

/-- Consecutive vertex pairs of a closed polygon, wrap-around included
(the source's `points[j]`, `points[(j + 1) % points.length]` scheme). -/
def wrapPairs : List Point → List (Point × Point)
  | [] => []
  | p :: ps => wrapPairsGo p (p :: ps)

/-- Signed shoelace sum `Σ (x_i·y_{i+1} − x_{i+1}·y_i)` over the closed loop,
as computed by the manual builder's area loop. -/
def shoelace (pts : List Point) : ℝ :=
  ((wrapPairs pts).map fun q => q.1.x * q.2.y - q.2.x * q.1.y).sum

/-- Contract of OpenCV's `cv.contourArea` on a polygonal contour: the
absolute shoelace value halved (Green's formula). -/
def contourArea (pts : List Point) : ℝ := |shoelace pts| / 2

/-- Contract of OpenCV's `cv.arcLength(contour, true)`: total Euclidean
length of the closed polyline through the contour points. -/
def arcLengthClosed (pts : List Point) : ℝ :=
  ((wrapPairs pts).map fun q => calculatePixelDistance q.1 q.2).sum

/-- The `edgesList` construction shared by `detectContours` and
`finishManualObject`: one edge per consecutive vertex pair (wrap-around
included), `pixelLength` the Euclidean distance, `realLength` null. -/
def buildEdges (pts : List Point) : List Edge :=
  (wrapPairs pts).map fun q => ⟨q.1, q.2, calculatePixelDistance q.1 q.2, none⟩

/-- Minimum of a list of reals (`Math.min(...xs)` on a nonempty spread). -/
def listMin : List ℝ → ℝ
  | [] => 0
  | x :: xs => xs.foldl min x

/-- Maximum of a list of reals (`Math.max(...xs)` on a nonempty spread). -/
def listMax : List ℝ → ℝ
  | [] => 0
  | x :: xs => xs.foldl max x

/-- Contract of OpenCV's `cv.boundingRect`: the up-right bounding box of a
contour on the integer pixel grid; its width and height are inclusive
extents (`max − min + 1`). -/
def boundingRect (pts : List Point) : Rect :=
  ⟨listMin (pts.map Point.x), listMin (pts.map Point.y),
   listMax (pts.map Point.x) - listMin (pts.map Point.x) + 1,
   listMax (pts.map Point.y) - listMin (pts.map Point.y) + 1⟩

/-- The min/max extent box computed inline by `finishManualObject`
(`{x: minX, y: minY, width: maxX - minX, height: maxY - minY}`). -/
def extentRect (pts : List Point) : Rect :=
  ⟨listMin (pts.map Point.x), listMin (pts.map Point.y),
   listMax (pts.map Point.x) - listMin (pts.map Point.x),
   listMax (pts.map Point.y) - listMin (pts.map Point.y)⟩

/-! ### Automatic detection pass (`detectContours`, src/src/opencvUtils.js)

`cv.findContours` hands the loop a list of raw contours; the loop body
(lines 122–195) filters each one and builds a `DetectedObject` from the
survivors.  `cv.approxPolyDP` is abstracted as the parameter `approxFn`,
and `Date.now()` as the parameter `now`. -/

/-- Eight-entry display palette of `detectContours`. -/
def PALETTE : List String :=
  ["#3B82F6", "#EF4444", "#10B981", "#F59E0B",
   "#8B5CF6", "#EC4899", "#06B6D4", "#F97316"]

/-- Five-entry display palette of `finishManualObject`. -/
def PALETTE5 : List String :=
  ["#3B82F6", "#EF4444", "#10B981", "#F59E0B", "#8B5CF6"]

/-- Filter 2 of both detection passes: the bounding box touches or crosses
the 10-pixel border band (`rect.x <= left || rect.y <= top ||
rect.x + rect.width >= right || rect.y + rect.height >= bottom` with
`left = top = 10`, `right = W - 10`, `bottom = H - 10`). -/
def borderReject (rect : Rect) (W H : ℝ) : Prop :=
  rect.x ≤ 10 ∨ rect.y ≤ 10 ∨
  rect.x + rect.width ≥ W - 10 ∨ rect.y + rect.height ≥ H - 10

instance (rect : Rect) (W H : ℝ) : Decidable (borderReject rect W H) :=
  inferInstanceAs (Decidable (rect.x ≤ 10 ∨ rect.y ≤ 10 ∨
    rect.x + rect.width ≥ W - 10 ∨ rect.y + rect.height ≥ H - 10))

/-- Body of the `detectContours` loop for a single contour: either the
contour is rejected (area band, border band, minimum size) and the object
list is returned unchanged, or a `DetectedObject` is appended. -/
def detectStep (W H : ℝ) (now : Nat) (approxFn : List Point → ℝ → List Point)
    (objects : List DetectedObject) (i : Nat) (contour : List Point) :
    List DetectedObject :=
  let area := contourArea contour
  let imageArea := W * H
  if area < 3000 ∨ area > imageArea * 0.5 then objects
  else
    let rect := boundingRect contour
    if borderReject rect W H then objects
    else if rect.width < 30 ∨ rect.height < 30 then objects
    else
      let epsilon := 0.015 * arcLengthClosed contour
      let points := approxFn contour epsilon
      let perimeter := arcLengthClosed contour
      let circularity := 4 * Real.pi * area / (perimeter * perimeter)
      let aspectRatio := rect.width / rect.height
      let isCoin : Bool :=
        if circularity > 0.60 ∧ area > 2500 ∧ area < imageArea * 0.4 ∧
            aspectRatio > 0.65 ∧ aspectRatio < 1.35 then true else false
      let edgesList := buildEdges points
      objects ++ [{
        id := "obj_" ++ toString now ++ "_" ++ toString i
        name := if isCoin then "Coin"
                else "Object " ++
                  toString ((objects.filter fun o => !o.isCoin).length + 1)
        color := PALETTE.getD (objects.length % 8) ""
        contour := rect
        points := points
        edges := edgesList
        area := area
        perimeter := perimeter
        isCoin := isCoin
        circularity := some circularity
        measurements := ⟨edgesList.map fun e => ⟨e.pixelLength, none⟩, none⟩ }]

/-- The `for` loop of `detectContours`: `i` is the loop index over the raw
contour list, `objects` the accumulator. -/
def detectContoursLoop (W H : ℝ) (now : Nat)
    (approxFn : List Point → ℝ → List Point) :
    List DetectedObject → Nat → List (List Point) → List DetectedObject
  | objects, _, [] => objects
  | objects, i, c :: rest =>
      detectContoursLoop W H now approxFn
        (detectStep W H now approxFn objects i c) (i + 1) rest

/-- `detectContours` after `cv.findContours`: run the filtering loop over
the raw contours with an empty accumulator. -/
def detectContoursPure (approxFn : List Point → ℝ → List Point)
    (contours : List (List Point)) (W H : ℝ) (now : Nat) :
    List DetectedObject :=
  detectContoursLoop W H now approxFn [] 0 contours

/-- The object record pushed by the `detectContours` variant in
src/src/utils/opencvUtils.js (lines 219–247) for an accepted contour `c`
with simplification output `approx`: there the `perimeter` field is the
sum of the built edges' `pixelLength`s (not the traced arc length, which
that variant uses only for `circularity`), and an empty simplification
falls back to the bounding-box corners for `points`. -/
def utilsObject (c approx : List Point) (i objCount now : Nat) :
    DetectedObject :=
  let rect := boundingRect c
  let edgesArr := buildEdges approx
  let perimeter := (edgesArr.map Edge.pixelLength).sum
  let peri := arcLengthClosed c
  let area := contourArea c
  let circularity := 4 * Real.pi * area / (peri * peri)
  { id := "obj_" ++ toString now ++ "_" ++ toString i
    name := "Object " ++ toString (objCount + 1)
    color := PALETTE.getD (objCount % 8) ""
    contour := rect
    points := if approx.length = 0 then
        [⟨rect.x, rect.y⟩, ⟨rect.x + rect.width, rect.y⟩,
         ⟨rect.x + rect.width, rect.y + rect.height⟩,
         ⟨rect.x, rect.y + rect.height⟩]
      else approx
    edges := edgesArr
    area := area
    perimeter := perimeter
    isCoin := false
    circularity := some circularity
    measurements := ⟨edgesArr.map fun e => ⟨e.pixelLength, none⟩, none⟩ }

/-! ### Isolated coin search (`detectCoin`, src/src/opencvUtils.js) -/

/-- Result record of `detectCoin`
(`{pixelDiameter, found, message}`). -/
structure CoinDetectionResult where
  pixelDiameter : Option ℝ
  found : Bool
  message : String

/-- Body of the `detectCoin` loop for one contour, threading the
`(coinDiameter, bestCircularity)` pair (lines 271–310). -/
def detectCoinStep (W H : ℝ) (st : Option ℝ × ℝ) (c : List Point) :
    Option ℝ × ℝ :=
  let area := contourArea c
  let imageArea := W * H
  if area < 3000 ∨ area > imageArea * 0.4 then st
  else
    let rect := boundingRect c
    if rect.width < 40 ∨ rect.height < 40 then st
    else if borderReject rect W H then st
    else
      let perimeter := arcLengthClosed c
      let circularity := 4 * Real.pi * area / (perimeter * perimeter)
      let aspectRatio := rect.width / rect.height
      if circularity > 0.45 ∧ aspectRatio > 0.6 ∧ aspectRatio < 1.4 then
        if circularity > st.2 then (some (max rect.width rect.height), circularity)
        else st
      else st

/-- `detectCoin` after `cv.findContours`: fold the candidate loop from
`(null, 0)`, then branch on the JavaScript truthiness of `coinDiameter`
(`if (coinDiameter) ... else ...`).  Both outcomes are returned values,
never a thrown error. -/
def detectCoinPure (contours : List (List Point)) (W H : ℝ) :
    CoinDetectionResult :=
  let final := contours.foldl (detectCoinStep W H) (none, 0)
  match final.1 with
  | some d =>
      if d = 0 then ⟨none, false, "No suitable coin found for calibration."⟩
      else ⟨some d, true, "Coin successfully detected for calibration."⟩
  | none => ⟨none, false, "No suitable coin found for calibration."⟩

/-- A contour qualifies as a coin candidate when it survives every filter
of the `detectCoin` loop and passes the circularity/aspect-ratio test. -/
def qualifiesAsCoin (c : List Point) (W H : ℝ) : Prop :=
  ¬ (contourArea c < 3000 ∨ contourArea c > W * H * 0.4) ∧
  ¬ ((boundingRect c).width < 40 ∨ (boundingRect c).height < 40) ∧
  ¬ borderReject (boundingRect c) W H ∧
  (4 * Real.pi * contourArea c /
      (arcLengthClosed c * arcLengthClosed c) > 0.45 ∧
    (boundingRect c).width / (boundingRect c).height > 0.6 ∧
    (boundingRect c).width / (boundingRect c).height < 1.4)

/-! ### Manual polygon builder (useDetectionState.jsx)

Only the fields of the React state touched by the manual builder are
embedded: the session's object collection, the calibration scale, the
interaction mode, the points gathered so far, and a log of the `alert`
calls (the source's error-reporting side effect). -/

/-- The embedded slice of the `DetectionProvider` state. -/
structure DetState where
  objects : List DetectedObject
  ppm : Option ℝ
  mode : String
  creatingPoints : List Point
  alerts : List String

/-- The `newObj` record built by `finishManualObject` from the validated
point list: extent bounding box, wrap-around edges with summed pixel
perimeter, shoelace area, sequential non-coin name and 5-palette color. -/
def manualObject (pts : List Point) (prev : DetState) (now : Nat) :
    DetectedObject :=
  let edges := buildEdges pts
  let perimeter := (edges.map Edge.pixelLength).sum
  let area := |shoelace pts| / 2
  let nextIndex := (prev.objects.filter fun o => !o.isCoin).length + 1
  { id := "manual_" ++ toString now ++ "_" ++ toString nextIndex
    name := "Object " ++ toString nextIndex
    color := PALETTE5.getD (nextIndex % 5) ""
    contour := extentRect pts
    points := pts
    edges := edges
    area := area
    perimeter := perimeter
    isCoin := false
    circularity := none
    measurements := ⟨edges.map fun e => ⟨e.pixelLength, none⟩, some perimeter⟩ }

/-- `finishManualObject` (useDetectionState.jsx lines 169–221): with fewer
than 3 points, alert and clear the gathered points, creating no object;
otherwise build the polygon object, apply the session scale when one is
set (`prev.ppm ? applyPPMToObject(...) : newObj`, where a `ppm` of 0 is
falsy), and append it to the session's collection.  `points = none` models
the JavaScript default `points = null` falling back to
`prev.creatingPoints`; `now` models `Date.now()`. -/
def finishManualObject (points : Option (List Point)) (prev : DetState)
    (now : Nat) : DetState :=
  let pts := points.getD prev.creatingPoints
  if pts.length < 3 then
    { prev with
      creatingPoints := []
      alerts := prev.alerts ++ ["At least 3 points are needed to create an object"] }
  else
    let newObj := manualObject pts prev now
    let finalObj := match prev.ppm with
      | none => newObj
      | some p => if p = 0 then newObj else applyPPMToObject newObj (some p)
    { prev with
      objects := prev.objects ++ [finalObj]
      creatingPoints := []
      mode := "select" }

/-- `addManualObjectPoint` (useDetectionState.jsx lines 149–165): append
the clicked point; once more than two points are gathered, a click within
10 pixels of the first point closes the polygon, handing every gathered
point except the closing duplicate to `finishManualObject` (whose state
update runs on the state with `creatingPoints` already cleared). -/
def addManualObjectPoint (p : Point) (prev : DetState) (now : Nat) :
    DetState :=
  let pts := prev.creatingPoints ++ [p]
  if 2 < pts.length then
    let first := pts.headD ⟨0, 0⟩
    if hypot (p.x - first.x) (p.y - first.y) < 10 then
      finishManualObject (some pts.dropLast)
        { prev with creatingPoints := [] } now
    else { prev with creatingPoints := pts }
  else { prev with creatingPoints := pts }

/-! ### Helper lemmas about the calibration engine -/

/-- Unfolding lemma for `applyPPMToObject` at a positive scale. -/
theorem applyPPM_some (obj : DetectedObject) {p : ℝ} (hp : ¬ p ≤ 0) :
    applyPPMToObject obj (some p) =
      { obj with
        edges := obj.edges.map fun e =>
          { e with realLength := some (round2 (e.pixelLength / p)) }
        measurements :=
          { edges := obj.edges.map fun e =>
              ⟨e.pixelLength, some (round2 (e.pixelLength / p))⟩
            perimeter := some (round2 (obj.perimeter / p)) } } := by
  simp [applyPPMToObject, hp, List.map_map, Function.comp]

/-- Calibration never changes any field other than `edges` and
`measurements`, and within an edge it only writes `realLength`. -/
theorem applyPPM_preserves (obj : DetectedObject) (ppm : Option ℝ) :
    (applyPPMToObject obj ppm).id = obj.id ∧
    (applyPPMToObject obj ppm).name = obj.name ∧
    (applyPPMToObject obj ppm).color = obj.color ∧
    (applyPPMToObject obj ppm).contour = obj.contour ∧
    (applyPPMToObject obj ppm).points = obj.points ∧
    (applyPPMToObject obj ppm).area = obj.area ∧
    (applyPPMToObject obj ppm).perimeter = obj.perimeter ∧
    (applyPPMToObject obj ppm).isCoin = obj.isCoin ∧
    (applyPPMToObject obj ppm).circularity = obj.circularity ∧
    (applyPPMToObject obj ppm).edges.map Edge.start = obj.edges.map Edge.start ∧
    (applyPPMToObject obj ppm).edges.map Edge.endPt = obj.edges.map Edge.endPt ∧
    (applyPPMToObject obj ppm).edges.map Edge.pixelLength
      = obj.edges.map Edge.pixelLength := by
  match ppm with
  | none => simp [applyPPMToObject]
  | some p =>
    by_cases hp : p ≤ 0
    · simp [applyPPMToObject, hp]
    · rw [applyPPM_some obj hp]
      refine ⟨rfl, rfl, rfl, rfl, rfl, rfl, rfl, rfl, rfl, ?_, ?_, ?_⟩ <;>
        simp [List.map_map, Function.comp]

/-- The calibrated `realLength` list is a function of the `pixelLength`
list alone. -/
theorem applyPPM_realLengths (obj : DetectedObject) {p : ℝ} (hp : ¬ p ≤ 0) :
    (applyPPMToObject obj (some p)).edges.map Edge.realLength
      = (obj.edges.map Edge.pixelLength).map
          (fun L => some (round2 (L / p))) := by
  rw [applyPPM_some obj hp]
  simp [List.map_map, Function.comp]

/-- Rounding to two decimals moves a value by at most `1/200`. -/
theorem round2_close (x : ℝ) : |round2 x - x| ≤ 1 / 200 := by
  have h1 : (⌊x * 100 + 1/2⌋ : ℝ) ≤ x * 100 + 1/2 := Int.floor_le _
  have h2 : x * 100 + 1/2 < (⌊x * 100 + 1/2⌋ : ℝ) + 1 := Int.lt_floor_add_one _
  rw [abs_le]
  unfold round2 jsRound
  constructor
  · linarith
  · linarith

/-! ### Sample data for witnesses -/

/-- A 3–4–5 edge used in witness instantiations. -/
def sampleEdge : Edge := ⟨⟨0, 0⟩, ⟨3, 4⟩, 5, none⟩

/-- A small concrete object used in witness instantiations. -/
def sampleObj : DetectedObject :=
  ⟨"o", "Object 1", "#3B82F6", ⟨0, 0, 4, 5⟩, [⟨0, 0⟩, ⟨3, 4⟩],
   [sampleEdge], 6, 12, false, none, ⟨[⟨5, none⟩], none⟩⟩

/-- The unit square contour, far too small to pass any area filter. -/
def unitSquare : List Point := [⟨0, 0⟩, ⟨1, 0⟩, ⟨1, 1⟩, ⟨0, 1⟩]

/-- A flat rhombus built on the Pythagorean triple (840, 41, 841): every
side has length 841, so its closed arc length is 3364 and the
Douglas–Peucker tolerance `0.015 * 3364 ≈ 50.5` exceeds the 41-pixel
deviation of its top and bottom vertices — simplification may legally
collapse it to its two extreme vertices. -/
def rhombusContour : List Point :=
  [⟨50, 100⟩, ⟨890, 141⟩, ⟨1730, 100⟩, ⟨890, 59⟩]

/-- A simplification outcome that collapses the rhombus to its two
extreme vertices (within the tolerance computed for it). -/
def collapseApprox : List Point → ℝ → List Point :=
  fun _ _ => [⟨50, 100⟩, ⟨1730, 100⟩]

/-- A 700×700 axis-aligned square contour, comfortably accepted by every
filter of the detection pass on a 2000×2000 image. -/
def bigSquare : List Point :=
  [⟨100, 100⟩, ⟨100, 800⟩, ⟨800, 800⟩, ⟨800, 100⟩]

/-- The identity simplification (no vertex removed). -/
def idApprox : List Point → ℝ → List Point := fun c _ => c

/-- A fresh manual-builder session state. -/
def initState : DetState := ⟨[], none, "select", [], []⟩

/-! ### Geometry helper lemmas -/

/-- The closed arc length is exactly the sum of the built edges'
`pixelLength`s. -/
theorem arcLength_eq_edge_sum (pts : List Point) :
    arcLengthClosed pts = ((buildEdges pts).map Edge.pixelLength).sum := by
  rw [buildEdges, List.map_map]
  rfl

/-- Square roots of concrete perfect squares. -/
theorem sqrt_eval {a b : ℝ} (hb : 0 ≤ b) (h : b * b = a) :
    Real.sqrt a = b := by
  rw [← h]; exact Real.sqrt_mul_self hb

/-- A contour that fails any filter of the `detectCoin` loop leaves the
candidate state untouched. -/
theorem detectCoinStep_of_not_qualifies {W H : ℝ} {c : List Point}
    (h : ¬ qualifiesAsCoin c W H) (st : Option ℝ × ℝ) :
    detectCoinStep W H st c = st := by
  unfold detectCoinStep
  simp only []
  split_ifs with h1 h2 h3 h4 h5 <;> try rfl
  exact absurd ⟨h1, h2, h3, h4⟩ h

/-- The shoelace area of the unit square is 1. -/
theorem contourArea_unitSquare : contourArea unitSquare = 1 := by
  simp only [contourArea, shoelace, unitSquare, wrapPairs, wrapPairsGo,
    List.map_cons, List.map_nil, List.sum_cons, List.sum_nil]
  norm_num

/-- The built edges' `pixelLength`s are the consecutive-pair distances. -/
theorem buildEdges_pixelLengths (pts : List Point) :
    (buildEdges pts).map Edge.pixelLength
      = (wrapPairs pts).map fun q => calculatePixelDistance q.1 q.2 := by
  rw [buildEdges, List.map_map]
  rfl

/-- With at least three points, `finishManualObject` appends exactly one
object carrying the shoelace area, the wrap-around perimeter, the extent
box and the supplied points — whether or not a calibration scale is then
applied to it. -/
theorem finishManual_accept (pts : List Point) (prev : DetState) (now : Nat)
    (h : ¬ pts.length < 3) :
    ∃ obj : DetectedObject,
      finishManualObject (some pts) prev now
        = { prev with
            objects := prev.objects ++ [obj]
            creatingPoints := []
            mode := "select" } ∧
      obj.area = |shoelace pts| / 2 ∧
      obj.perimeter = arcLengthClosed pts ∧
      obj.contour = extentRect pts ∧
      obj.points = pts ∧
      obj.edges.map Edge.pixelLength
        = (wrapPairs pts).map fun q => calculatePixelDistance q.1 q.2 := by
  have hfields : (manualObject pts prev now).area = |shoelace pts| / 2 ∧
      (manualObject pts prev now).perimeter = arcLengthClosed pts ∧
      (manualObject pts prev now).contour = extentRect pts ∧
      (manualObject pts prev now).points = pts ∧
      (manualObject pts prev now).edges.map Edge.pixelLength
        = (wrapPairs pts).map fun q => calculatePixelDistance q.1 q.2 := by
    refine ⟨rfl, ?_, rfl, rfl, buildEdges_pixelLengths pts⟩
    rw [arcLength_eq_edge_sum]
    rfl
  unfold finishManualObject
  simp only [Option.getD_some, if_neg h]
  cases hppm : prev.ppm with
  | none => exact ⟨manualObject pts prev now, rfl, hfields⟩
  | some p =>
    simp only []
    by_cases hp : p = 0
    · rw [if_pos hp]
      exact ⟨manualObject pts prev now, rfl, hfields⟩
    · rw [if_neg hp]
      obtain ⟨-, -, -, hcontour, hpoints, harea, hperi, -, -, -, -, hpix⟩ :=
        applyPPM_preserves (manualObject pts prev now) (some p)
      exact ⟨applyPPMToObject (manualObject pts prev now) (some p), rfl,
        harea.trans hfields.1, hperi.trans hfields.2.1,
        hcontour.trans hfields.2.2.1, hpoints.trans hfields.2.2.2.1,
        hpix.trans hfields.2.2.2.2⟩

/-- Every object produced by the detection loop that was not already in
the accumulator comes from one input contour: its `perimeter` is that
contour's closed arc length, its `points` are the simplification output at
tolerance `0.015 *` arc length, and its `edges` are built from those
points. -/
theorem detectLoop_mem (W H : ℝ) (now : Nat)
    (approxFn : List Point → ℝ → List Point) :
    ∀ (contours : List (List Point)) (objects : List DetectedObject)
      (i : Nat), ∀ obj ∈ detectContoursLoop W H now approxFn objects i contours,
      obj ∈ objects ∨ ∃ c ∈ contours,
        obj.perimeter = arcLengthClosed c ∧
        obj.points = approxFn c (0.015 * arcLengthClosed c) ∧
        obj.edges = buildEdges obj.points := by
  intro contours
  induction contours with
  | nil => intro objects i obj hmem; exact Or.inl hmem
  | cons c rest ih =>
    intro objects i obj hmem
    rcases ih (detectStep W H now approxFn objects i c) (i + 1) obj hmem with
      hin | ⟨c2, hc2, hp⟩
    · have hstep : obj ∈ objects ∨
          (obj.perimeter = arcLengthClosed c ∧
            obj.points = approxFn c (0.015 * arcLengthClosed c) ∧
            obj.edges = buildEdges obj.points) := by
        unfold detectStep at hin
        simp only [] at hin
        split_ifs at hin <;>
          first
          | exact Or.inl hin
          | exact (List.mem_append.mp hin).elim Or.inl fun h => by
              rw [List.mem_singleton] at h
              subst h
              exact Or.inr ⟨rfl, rfl, rfl⟩
      rcases hstep with h | h
      · exact Or.inl h
      · exact Or.inr ⟨c, List.mem_cons_self c rest, h⟩
    · exact Or.inr ⟨c2, List.mem_cons_of_mem c hc2, hp⟩

/-- The signed shoelace sum of the rhombus contour. -/
theorem shoelace_rhombus : shoelace rhombusContour = -137760 := by
  simp only [shoelace, rhombusContour, wrapPairs, wrapPairsGo, List.map_cons,
    List.map_nil, List.sum_cons, List.sum_nil]
  norm_num

/-- The area handed to the filters for the rhombus contour. -/
theorem contourArea_rhombus : contourArea rhombusContour = 68880 := by
  rw [contourArea, shoelace_rhombus, abs_of_nonpos (by norm_num)]
  norm_num

/-- The bounding box of the rhombus contour. -/
theorem boundingRect_rhombus : boundingRect rhombusContour = ⟨50, 59, 1681, 83⟩ := by
  simp only [boundingRect, rhombusContour, List.map_cons, List.map_nil,
    listMin, listMax, List.foldl_cons, List.foldl_nil]
  rw [Rect.mk.injEq]
  norm_num [min_def, max_def]

/-- The closed arc length of the rhombus contour: four sides of 841. -/
theorem arcLength_rhombus : arcLengthClosed rhombusContour = 3364 := by
  have d1 : calculatePixelDistance ⟨50, 100⟩ ⟨890, 141⟩ = 841 :=
    sqrt_eval (by norm_num) (by norm_num)
  have d2 : calculatePixelDistance ⟨890, 141⟩ ⟨1730, 100⟩ = 841 :=
    sqrt_eval (by norm_num) (by norm_num)
  have d3 : calculatePixelDistance ⟨1730, 100⟩ ⟨890, 59⟩ = 841 :=
    sqrt_eval (by norm_num) (by norm_num)
  have d4 : calculatePixelDistance ⟨890, 59⟩ ⟨50, 100⟩ = 841 :=
    sqrt_eval (by norm_num) (by norm_num)
  simp only [arcLengthClosed, rhombusContour, wrapPairs, wrapPairsGo,
    List.map_cons, List.map_nil, List.sum_cons, List.sum_nil, d1, d2, d3, d4]
  norm_num

/-- Running the detection pass on the rhombus with the collapsing
simplification yields one object whose `perimeter` is the contour arc
length while its `edges` span only the two extreme vertices. -/
theorem rhombus_run : ∃ obj : DetectedObject,
    detectContoursPure collapseApprox [rhombusContour] 3000 3000 0 = [obj] ∧
    obj.perimeter = arcLengthClosed rhombusContour ∧
    obj.edges = buildEdges [⟨50, 100⟩, ⟨1730, 100⟩] := by
  have h1 : ¬ (contourArea rhombusContour < 3000 ∨
      contourArea rhombusContour > (3000 : ℝ) * 3000 * 0.5) := by
    rw [contourArea_rhombus]
    push_neg
    norm_num
  have h2 : ¬ borderReject (boundingRect rhombusContour) 3000 3000 := by
    rw [boundingRect_rhombus]
    unfold borderReject
    push_neg
    norm_num
  have h3 : ¬ ((boundingRect rhombusContour).width < 30 ∨
      (boundingRect rhombusContour).height < 30) := by
    rw [boundingRect_rhombus]
    push_neg
    norm_num
  unfold detectContoursPure detectContoursLoop detectStep
  simp only []
  rw [if_neg h1, if_neg h2, if_neg h3]
  exact ⟨_, rfl, rfl, rfl⟩

/-- Running the detection pass on the big square with the identity
simplification yields one object. -/
theorem bigSquare_run : ∃ obj : DetectedObject,
    detectContoursPure idApprox [bigSquare] 2000 2000 0 = [obj] := by
  have hsh : shoelace bigSquare = -980000 := by
    simp only [shoelace, bigSquare, wrapPairs, wrapPairsGo, List.map_cons,
      List.map_nil, List.sum_cons, List.sum_nil]
    norm_num
  have h1 : ¬ (contourArea bigSquare < 3000 ∨
      contourArea bigSquare > (2000 : ℝ) * 2000 * 0.5) := by
    rw [contourArea, hsh, abs_of_nonpos (by norm_num)]
    push_neg
    norm_num
  have hrect : boundingRect bigSquare = ⟨100, 100, 701, 701⟩ := by
    simp only [boundingRect, bigSquare, List.map_cons, List.map_nil,
      listMin, listMax, List.foldl_cons, List.foldl_nil]
    rw [Rect.mk.injEq]
    norm_num [min_def, max_def]
  have h2 : ¬ borderReject (boundingRect bigSquare) 2000 2000 := by
    rw [hrect]
    unfold borderReject
    push_neg
    norm_num
  have h3 : ¬ ((boundingRect bigSquare).width < 30 ∨
      (boundingRect bigSquare).height < 30) := by
    rw [hrect]
    push_neg
    norm_num
  unfold detectContoursPure detectContoursLoop detectStep
  simp only []
  rw [if_neg h1, if_neg h2, if_neg h3]
  exact ⟨_, rfl⟩

/-! ### Claim theorems -/

/-- C1: for every object and every `ppm > 0`, `applyPPMToObject` writes
`realLength = round2(pixelLength / ppm)` on every edge and
`measurements.perimeter = round2(perimeter / ppm)`, and those outputs are
recomputed from the `pixelLength`/`perimeter` fields alone — two objects
agreeing on those fields (whatever `realLength` values they carry) get
identical calibration results. -/
theorem applyPPM_recomputes (obj : DetectedObject) (p : ℝ) (hp : 0 < p) :
    (applyPPMToObject obj (some p)).edges.map Edge.realLength
        = obj.edges.map (fun e => some (round2 (e.pixelLength / p))) ∧
    (applyPPMToObject obj (some p)).measurements.perimeter
        = some (round2 (obj.perimeter / p)) ∧
    ∀ obj2 : DetectedObject,
      obj2.edges.map Edge.pixelLength = obj.edges.map Edge.pixelLength →
      obj2.perimeter = obj.perimeter →
      (applyPPMToObject obj2 (some p)).edges.map Edge.realLength
          = (applyPPMToObject obj (some p)).edges.map Edge.realLength ∧
      (applyPPMToObject obj2 (some p)).measurements.perimeter
          = (applyPPMToObject obj (some p)).measurements.perimeter := by
  have hnp : ¬ p ≤ 0 := not_le.mpr hp
  refine ⟨?_, ?_, ?_⟩
  · rw [applyPPM_some obj hnp]
    simp [List.map_map, Function.comp]
  · rw [applyPPM_some obj hnp]
  · intro obj2 hL hP
    constructor
    · rw [applyPPM_realLengths obj hnp, applyPPM_realLengths obj2 hnp, hL]
    · rw [applyPPM_some obj hnp, applyPPM_some obj2 hnp]
      simp [hP]

/-- Witness for C1 at a concrete object and scale. -/
theorem applyPPM_recomputes_witness :
    (0 : ℝ) < 2 ∧
    (applyPPMToObject sampleObj (some 2)).edges.map Edge.realLength
        = sampleObj.edges.map (fun e => some (round2 (e.pixelLength / 2))) :=
  ⟨by norm_num, (applyPPM_recomputes sampleObj 2 (by norm_num)).1⟩

/-- C2: for every `pixelDistance > 0`, `calculatePPM` returns exactly
`pixelDistance / 26.5`, and composing it with `applyPPMToObject` gives
every edge `realLength = round2(pixelLength * COIN_DIAMETER_MM /
pixelDistance)`; `round2` moves a value by at most `1/200`, the 2-decimal
rounding tolerance. -/
theorem calibration_roundtrip (d : ℝ) (hd : 0 < d) (obj : DetectedObject) :
    calculatePPM d = d / 26.5 ∧
    (applyPPMToObject obj (some (calculatePPM d))).edges.map Edge.realLength
        = obj.edges.map
            (fun e => some (round2 (e.pixelLength * COIN_DIAMETER_MM / d))) ∧
    ∀ x : ℝ, |round2 x - x| ≤ 1 / 200 := by
  have hppm : (0 : ℝ) < calculatePPM d :=
    div_pos hd (by norm_num [COIN_DIAMETER_MM])
  have hnp : ¬ calculatePPM d ≤ 0 := not_le.mpr hppm
  refine ⟨rfl, ?_, fun x => round2_close x⟩
  rw [applyPPM_realLengths obj hnp, List.map_map]
  have hfun : ((fun L => some (round2 (L / calculatePPM d))) ∘ Edge.pixelLength)
      = fun e : Edge => some (round2 (e.pixelLength * COIN_DIAMETER_MM / d)) := by
    funext e
    simp only [Function.comp, calculatePPM, div_div_eq_mul_div]
  rw [hfun]

/-- Witness for C2 at `pixelDistance = 53` (so `ppm = 2`). -/
theorem calibration_roundtrip_witness :
    (0 : ℝ) < 53 ∧
    calculatePPM 53 = 53 / 26.5 ∧
    (applyPPMToObject sampleObj (some (calculatePPM 53))).edges.map
        Edge.realLength
      = sampleObj.edges.map
          (fun e => some (round2 (e.pixelLength * COIN_DIAMETER_MM / 53))) :=
  ⟨by norm_num, (calibration_roundtrip 53 (by norm_num) sampleObj).1,
    (calibration_roundtrip 53 (by norm_num) sampleObj).2.1⟩

/-- C3: a null, zero, or negative `ppm` makes `applyPPMToObject` return
the object unchanged (the same record, so `realLength` fields keep their
input values); the guard returns a value, it never raises. -/
theorem applyPPM_noop (obj : DetectedObject) :
    applyPPMToObject obj none = obj ∧
    applyPPMToObject obj (some 0) = obj ∧
    ∀ p : ℝ, p ≤ 0 → applyPPMToObject obj (some p) = obj := by
  refine ⟨rfl, ?_, fun p hp => ?_⟩
  · simp [applyPPMToObject]
  · simp [applyPPMToObject, hp]

/-- Witness for C3 at a negative scale. -/
theorem applyPPM_noop_witness :
    (-5 : ℝ) ≤ 0 ∧ applyPPMToObject sampleObj (some (-5)) = sampleObj :=
  ⟨by norm_num, (applyPPM_noop sampleObj).2.2 (-5) (by norm_num)⟩

/-- C10: for `ppm > 0`, `applyPPMToObject` changes only `edges` and
`measurements`: the result keeps the input's `id`, `name`, `color`,
`contour`, `points`, `area`, `perimeter`, `isCoin` and `circularity`, and
every edge keeps its `start`, `endPt` and `pixelLength` (only
`realLength` is written). -/
theorem applyPPM_frame (obj : DetectedObject) (p : ℝ) (_hp : 0 < p) :
    (applyPPMToObject obj (some p)).id = obj.id ∧
    (applyPPMToObject obj (some p)).name = obj.name ∧
    (applyPPMToObject obj (some p)).color = obj.color ∧
    (applyPPMToObject obj (some p)).contour = obj.contour ∧
    (applyPPMToObject obj (some p)).points = obj.points ∧
    (applyPPMToObject obj (some p)).area = obj.area ∧
    (applyPPMToObject obj (some p)).perimeter = obj.perimeter ∧
    (applyPPMToObject obj (some p)).isCoin = obj.isCoin ∧
    (applyPPMToObject obj (some p)).circularity = obj.circularity ∧
    (applyPPMToObject obj (some p)).edges.map Edge.start
      = obj.edges.map Edge.start ∧
    (applyPPMToObject obj (some p)).edges.map Edge.endPt
      = obj.edges.map Edge.endPt ∧
    (applyPPMToObject obj (some p)).edges.map Edge.pixelLength
      = obj.edges.map Edge.pixelLength :=
  applyPPM_preserves obj (some p)

/-- Witness for C10 at a concrete object and scale. -/
theorem applyPPM_frame_witness :
    (0 : ℝ) < 2 ∧
    (applyPPMToObject sampleObj (some 2)).area = sampleObj.area :=
  ⟨by norm_num, (applyPPM_frame sampleObj 2 (by norm_num)).2.2.2.2.2.1⟩

/-- C5: when no contour qualifies as a coin candidate, `detectCoin` yields
the distinguishable value `{pixelDiameter: null, found: false, ...}` — a
returned record, not a thrown error (the embedding is a total function;
even the source's catch block returns this shape). -/
theorem detectCoin_notFound (contours : List (List Point)) (W H : ℝ)
    (h : ∀ c ∈ contours, ¬ qualifiesAsCoin c W H) :
    detectCoinPure contours W H
      = ⟨none, false, "No suitable coin found for calibration."⟩ := by
  have hfold : ∀ (l : List (List Point)),
      (∀ c ∈ l, ¬ qualifiesAsCoin c W H) →
      ∀ st : Option ℝ × ℝ, l.foldl (detectCoinStep W H) st = st := by
    intro l
    induction l with
    | nil => intro _ st; rfl
    | cons c rest ih =>
      intro hl st
      rw [List.foldl_cons,
        detectCoinStep_of_not_qualifies (hl c (by simp)) st]
      exact ih (fun c2 hc2 => hl c2 (by simp [hc2])) st
  unfold detectCoinPure
  rw [hfold contours h (none, 0)]

/-- Witness for C5: a lone undersized contour qualifies nowhere, and the
search reports not-found. -/
theorem detectCoin_notFound_witness :
    (∀ c ∈ [unitSquare], ¬ qualifiesAsCoin c 500 500) ∧
    detectCoinPure [unitSquare] 500 500
      = ⟨none, false, "No suitable coin found for calibration."⟩ := by
  have hq : ∀ c ∈ [unitSquare], ¬ qualifiesAsCoin c 500 500 := by
    intro c hc
    rw [List.mem_singleton] at hc
    subst hc
    intro hqual
    exact hqual.1 (Or.inl (by rw [contourArea_unitSquare]; norm_num))
  exact ⟨hq, detectCoin_notFound [unitSquare] 500 500 hq⟩

/-- C7: `finishManualObject` with fewer than 3 points reports an error
(the alert log grows by the validation message), resets the gathered
points, and leaves the session's object collection unchanged. -/
theorem finishManual_rejects (pts : List Point) (prev : DetState) (now : Nat)
    (h : pts.length < 3) :
    (finishManualObject (some pts) prev now).objects = prev.objects ∧
    (finishManualObject (some pts) prev now).creatingPoints = [] ∧
    (finishManualObject (some pts) prev now).alerts
      = prev.alerts ++ ["At least 3 points are needed to create an object"] := by
  unfold finishManualObject
  simp [h]

/-- Witness for C7 at a 2-point input. -/
theorem finishManual_rejects_witness :
    ([⟨0, 0⟩, ⟨1, 1⟩] : List Point).length < 3 ∧
    (finishManualObject (some [⟨0, 0⟩, ⟨1, 1⟩]) initState 0).objects
      = initState.objects :=
  ⟨by norm_num,
    (finishManual_rejects [⟨0, 0⟩, ⟨1, 1⟩] initState 0 (by norm_num)).1⟩

/-- C9: a contour whose bounding box falls in the 10-pixel border band
contributes nothing to `detectContours` — the loop over the remaining
contours continues from an unchanged object list (only the raw loop index
advances), whatever the contour's circularity or area. -/
theorem detectContours_borderReject (W H : ℝ) (now : Nat)
    (approxFn : List Point → ℝ → List Point) (objects : List DetectedObject)
    (i : Nat) (c : List Point) (rest : List (List Point))
    (h : borderReject (boundingRect c) W H) :
    detectContoursLoop W H now approxFn objects i (c :: rest)
      = detectContoursLoop W H now approxFn objects (i + 1) rest := by
  have hstep : detectStep W H now approxFn objects i c = objects := by
    unfold detectStep
    simp only []
    split_ifs <;> rfl
  show detectContoursLoop W H now approxFn
      (detectStep W H now approxFn objects i c) (i + 1) rest = _
  rw [hstep]

/-- Witness for C9: a contour touching pixel column 0 of a 500×500 image
is dropped. -/
theorem detectContours_borderReject_witness :
    borderReject (boundingRect [(⟨0, 250⟩ : Point)]) 500 500 ∧
    detectContoursLoop 500 500 0 (fun c _ => c) [] 0 [[⟨0, 250⟩]]
      = detectContoursLoop 500 500 0 (fun c _ => c) [] 1 [] := by
  have hb : borderReject (boundingRect [(⟨0, 250⟩ : Point)]) 500 500 := by
    refine Or.inl ?_
    simp only [boundingRect, listMin, listMax, List.map_cons, List.map_nil,
      List.foldl_nil]
    norm_num
  exact ⟨hb, detectContours_borderReject 500 500 0 (fun c _ => c) [] 0 _ [] hb⟩

/-- C6: for any list of at least 3 points, the manual builder creates one
object whose `area` is the absolute shoelace sum halved, whose `perimeter`
is the sum of consecutive-point Euclidean edge lengths including the
wrap-around edge, and whose bounding box is the min/max extent of the
points; for the square `[(0,0),(10,0),(10,10),(0,10)]` the area is 100,
the perimeter 40, every edge `pixelLength` 10, and the box `(0,0,10,10)`. -/
theorem buildManualPolygon_geometry :
    (∀ (pts : List Point) (prev : DetState) (now : Nat), 3 ≤ pts.length →
      ∃ obj : DetectedObject,
        (finishManualObject (some pts) prev now).objects
            = prev.objects ++ [obj] ∧
        obj.area = |shoelace pts| / 2 ∧
        obj.perimeter = arcLengthClosed pts ∧
        obj.contour = extentRect pts ∧
        obj.edges.map Edge.pixelLength
          = (wrapPairs pts).map fun q => calculatePixelDistance q.1 q.2) ∧
    (∃ obj : DetectedObject,
      (finishManualObject
          (some [⟨0, 0⟩, ⟨10, 0⟩, ⟨10, 10⟩, ⟨0, 10⟩]) initState 0).objects
        = [obj] ∧
      obj.area = 100 ∧ obj.perimeter = 40 ∧
      obj.edges.map Edge.pixelLength = [10, 10, 10, 10] ∧
      obj.contour = ⟨0, 0, 10, 10⟩) := by
  constructor
  · intro pts prev now h3
    obtain ⟨obj, heq, harea, hperi, hcontour, -, hpix⟩ :=
      finishManual_accept pts prev now (not_lt.mpr h3)
    exact ⟨obj, by rw [heq], harea, hperi, hcontour, hpix⟩
  · obtain ⟨obj, heq, harea, hperi, hcontour, -, hpix⟩ :=
      finishManual_accept [⟨0, 0⟩, ⟨10, 0⟩, ⟨10, 10⟩, ⟨0, 10⟩] initState 0
        (by norm_num)
    have e1 : calculatePixelDistance ⟨0, 0⟩ ⟨10, 0⟩ = 10 :=
      sqrt_eval (by norm_num) (by norm_num)
    have e2 : calculatePixelDistance ⟨10, 0⟩ ⟨10, 10⟩ = 10 :=
      sqrt_eval (by norm_num) (by norm_num)
    have e3 : calculatePixelDistance ⟨10, 10⟩ ⟨0, 10⟩ = 10 :=
      sqrt_eval (by norm_num) (by norm_num)
    have e4 : calculatePixelDistance ⟨0, 10⟩ ⟨0, 0⟩ = 10 :=
      sqrt_eval (by norm_num) (by norm_num)
    refine ⟨obj, ?_, ?_, ?_, ?_, ?_⟩
    · rw [heq]
      simp [initState]
    · rw [harea]
      have hs : shoelace [⟨0, 0⟩, ⟨10, 0⟩, ⟨10, 10⟩, ⟨0, 10⟩] = 200 := by
        simp only [shoelace, wrapPairs, wrapPairsGo, List.map_cons,
          List.map_nil, List.sum_cons, List.sum_nil]
        norm_num
      rw [hs, abs_of_nonneg (by norm_num : (0:ℝ) ≤ 200)]
      norm_num
    · rw [hperi]
      simp only [arcLengthClosed, wrapPairs, wrapPairsGo, List.map_cons,
        List.map_nil, List.sum_cons, List.sum_nil, e1, e2, e3, e4]
      norm_num
    · rw [hpix]
      simp only [wrapPairs, wrapPairsGo, List.map_cons, List.map_nil,
        e1, e2, e3, e4]
    · rw [hcontour]
      simp only [extentRect, List.map_cons, List.map_nil, listMin, listMax,
        List.foldl_cons, List.foldl_nil]
      norm_num [min_def, max_def]

/-- Witness for C6's universally quantified part at a concrete triangle. -/
theorem buildManualPolygon_geometry_witness :
    3 ≤ ([⟨0, 0⟩, ⟨3, 0⟩, ⟨0, 4⟩] : List Point).length ∧
    ∃ obj : DetectedObject,
      (finishManualObject (some [⟨0, 0⟩, ⟨3, 0⟩, ⟨0, 4⟩]) initState 0).objects
          = initState.objects ++ [obj] ∧
      obj.area = |shoelace [⟨0, 0⟩, ⟨3, 0⟩, ⟨0, 4⟩]| / 2 ∧
      obj.perimeter = arcLengthClosed [⟨0, 0⟩, ⟨3, 0⟩, ⟨0, 4⟩] ∧
      obj.contour = extentRect [⟨0, 0⟩, ⟨3, 0⟩, ⟨0, 4⟩] ∧
      obj.edges.map Edge.pixelLength
        = (wrapPairs [⟨0, 0⟩, ⟨3, 0⟩, ⟨0, 4⟩]).map
            fun q => calculatePixelDistance q.1 q.2 :=
  ⟨by norm_num,
    buildManualPolygon_geometry.1 [⟨0, 0⟩, ⟨3, 0⟩, ⟨0, 4⟩] initState 0
      (by norm_num)⟩

/-- C8: while points are being collected, a new point landing within 10
pixels of the first one (once more than two points are gathered) closes
the polygon: the gathered points minus the closing duplicate are handed to
`finishManualObject` on the state with the collection buffer cleared; and
the concrete click sequence `[(0,0),(50,0),(50,50),(0,50),(2,1)]`
finalizes a single 4-vertex object. -/
theorem addManualPoint_closing :
    (∀ (p : Point) (prev : DetState) (now : Nat),
      2 < (prev.creatingPoints ++ [p]).length →
      hypot (p.x - ((prev.creatingPoints ++ [p]).headD ⟨0, 0⟩).x)
            (p.y - ((prev.creatingPoints ++ [p]).headD ⟨0, 0⟩).y) < 10 →
      (prev.creatingPoints ++ [p]).dropLast = prev.creatingPoints ∧
      addManualObjectPoint p prev now
        = finishManualObject (some prev.creatingPoints)
            { prev with creatingPoints := [] } now) ∧
    (∃ obj : DetectedObject,
      (addManualObjectPoint ⟨2, 1⟩
        (addManualObjectPoint ⟨0, 50⟩
          (addManualObjectPoint ⟨50, 50⟩
            (addManualObjectPoint ⟨50, 0⟩
              (addManualObjectPoint ⟨0, 0⟩ initState 0) 0) 0) 0) 0).objects
        = [obj] ∧
      obj.points = [⟨0, 0⟩, ⟨50, 0⟩, ⟨50, 50⟩, ⟨0, 50⟩] ∧
      obj.points.length = 4) := by
  have h100 : Real.sqrt 100 = 10 := sqrt_eval (by norm_num) (by norm_num)
  constructor
  · intro p prev now hlen hdist
    refine ⟨List.dropLast_concat, ?_⟩
    unfold addManualObjectPoint
    simp only []
    rw [if_pos hlen, if_pos hdist, List.dropLast_concat]
  · have s1 : addManualObjectPoint ⟨0, 0⟩ initState 0
        = ⟨[], none, "select", [⟨0, 0⟩], []⟩ := by
      unfold addManualObjectPoint initState
      simp only []
      rw [if_neg (by norm_num)]
      rfl
    have s2 : addManualObjectPoint ⟨50, 0⟩ ⟨[], none, "select", [⟨0, 0⟩], []⟩ 0
        = ⟨[], none, "select", [⟨0, 0⟩, ⟨50, 0⟩], []⟩ := by
      unfold addManualObjectPoint
      simp only []
      rw [if_neg (by norm_num)]
      rfl
    have s3 : addManualObjectPoint ⟨50, 50⟩
          ⟨[], none, "select", [⟨0, 0⟩, ⟨50, 0⟩], []⟩ 0
        = ⟨[], none, "select", [⟨0, 0⟩, ⟨50, 0⟩, ⟨50, 50⟩], []⟩ := by
      unfold addManualObjectPoint
      simp only []
      split_ifs with h1 h2
      · exfalso
        simp only [List.cons_append, List.nil_append, List.headD_cons] at h2
        rw [hypot] at h2
        norm_num at h2
        have hge : (10 : ℝ) ≤ Real.sqrt 5000 := by
          rw [← h100]
          exact Real.sqrt_le_sqrt (by norm_num)
        linarith
      · rfl
      · rfl
    have s4 : addManualObjectPoint ⟨0, 50⟩
          ⟨[], none, "select", [⟨0, 0⟩, ⟨50, 0⟩, ⟨50, 50⟩], []⟩ 0
        = ⟨[], none, "select", [⟨0, 0⟩, ⟨50, 0⟩, ⟨50, 50⟩, ⟨0, 50⟩], []⟩ := by
      unfold addManualObjectPoint
      simp only []
      split_ifs with h1 h2
      · exfalso
        simp only [List.cons_append, List.nil_append, List.headD_cons] at h2
        rw [hypot] at h2
        norm_num at h2
        have h2500 : Real.sqrt 2500 = 50 := sqrt_eval (by norm_num) (by norm_num)
        rw [h2500] at h2
        norm_num at h2
      · rfl
      · rfl
    have s5 : addManualObjectPoint ⟨2, 1⟩
          ⟨[], none, "select", [⟨0, 0⟩, ⟨50, 0⟩, ⟨50, 50⟩, ⟨0, 50⟩], []⟩ 0
        = finishManualObject (some [⟨0, 0⟩, ⟨50, 0⟩, ⟨50, 50⟩, ⟨0, 50⟩])
            ⟨[], none, "select", [], []⟩ 0 := by
      unfold addManualObjectPoint
      simp only []
      split_ifs with h1 h2
      · rfl
      · exfalso
        apply h2
        simp only [List.cons_append, List.nil_append, List.headD_cons]
        rw [hypot]
        norm_num
        calc Real.sqrt 5 < Real.sqrt 100 := Real.sqrt_lt_sqrt (by norm_num) (by norm_num)
          _ = 10 := h100
      · exact absurd (by norm_num : 2 < 5) h1
    rw [s1, s2, s3, s4, s5]
    obtain ⟨obj, heq, -, -, -, hpoints, -⟩ :=
      finishManual_accept [⟨0, 0⟩, ⟨50, 0⟩, ⟨50, 50⟩, ⟨0, 50⟩]
        ⟨[], none, "select", [], []⟩ 0 (by norm_num)
    refine ⟨obj, ?_, hpoints, ?_⟩
    · rw [heq]
      rfl
    · rw [hpoints]
      norm_num

/-- Witness for C8's universally quantified part: a fourth click right on
the first corner closes a triangle. -/
theorem addManualPoint_closing_witness :
    (2 < (([⟨0, 0⟩, ⟨30, 0⟩, ⟨0, 40⟩] : List Point) ++ ([⟨0, 0⟩] : List Point)).length) ∧
    ((([⟨0, 0⟩, ⟨30, 0⟩, ⟨0, 40⟩] : List Point) ++ ([⟨0, 0⟩] : List Point)).dropLast
        = [⟨0, 0⟩, ⟨30, 0⟩, ⟨0, 40⟩] ∧
      addManualObjectPoint ⟨0, 0⟩
          ⟨[], none, "create_object", [⟨0, 0⟩, ⟨30, 0⟩, ⟨0, 40⟩], []⟩ 0
        = finishManualObject (some [⟨0, 0⟩, ⟨30, 0⟩, ⟨0, 40⟩])
            ⟨[], none, "create_object", [], []⟩ 0) := by
  refine ⟨by norm_num, ?_⟩
  have hd : hypot ((0 : ℝ) - 0) ((0 : ℝ) - 0) < 10 := by
    rw [hypot]
    norm_num
  exact addManualPoint_closing.1 ⟨0, 0⟩
    ⟨[], none, "create_object", [⟨0, 0⟩, ⟨30, 0⟩, ⟨0, 40⟩], []⟩ 0
    (by norm_num) (by simpa using hd)

/-- C4 counterexample: it is not true that every object produced by the
detection pass of src/src/opencvUtils.js has `perimeter` equal to the sum
of its edges' `pixelLength`s.  The rhombus contour (sides 841, arc length
3364) passes every filter on a 3000×3000 image, and its Douglas–Peucker
tolerance `0.015 * 3364 ≈ 50.5` exceeds the 41-pixel deviation of its top
and bottom vertices, so the simplification may collapse it to its two
extreme vertices; the resulting object keeps `perimeter = 3364` (the
traced arc length) while its edges sum to `2 * 1680 = 3360`. -/
theorem detectContours_perimeter_cex :
    ¬ (∀ (approxFn : List Point → ℝ → List Point)
        (contours : List (List Point)) (W H : ℝ) (now : Nat),
        ∀ obj ∈ detectContoursPure approxFn contours W H now,
          obj.perimeter = (obj.edges.map Edge.pixelLength).sum) := by
  intro hclaim
  obtain ⟨obj, hout, hperim, hedges⟩ := rhombus_run
  have hmem : obj ∈ detectContoursPure collapseApprox [rhombusContour] 3000 3000 0 := by
    rw [hout]
    exact List.mem_singleton_self obj
  have hbad := hclaim collapseApprox [rhombusContour] 3000 3000 0 obj hmem
  rw [hperim, hedges, arcLength_rhombus, buildEdges_pixelLengths] at hbad
  have a1 : calculatePixelDistance ⟨50, 100⟩ ⟨1730, 100⟩ = 1680 :=
    sqrt_eval (by norm_num) (by norm_num)
  have a2 : calculatePixelDistance ⟨1730, 100⟩ ⟨50, 100⟩ = 1680 :=
    sqrt_eval (by norm_num) (by norm_num)
  simp only [wrapPairs, wrapPairsGo, List.map_cons, List.map_nil,
    List.sum_cons, List.sum_nil, a1, a2] at hbad
  norm_num at hbad

/-- C4 amended: in the detection pass of src/src/opencvUtils.js the
`perimeter` field of every produced object is the closed arc length of the
raw traced contour, while the edges are built from the simplified points
(consecutive pairs with wrap-around); the two agree — and the original
claim holds — whenever the simplification returns the contour itself.  In
the src/src/utils/opencvUtils.js variant the `perimeter` field is defined
as the sum of the edges' `pixelLength`s, so there the claim is
unconditional. -/
theorem detectContours_perimeter_spec :
    (∀ (approxFn : List Point → ℝ → List Point)
        (contours : List (List Point)) (W H : ℝ) (now : Nat),
      ∀ obj ∈ detectContoursPure approxFn contours W H now,
        ∃ c ∈ contours,
          obj.perimeter = arcLengthClosed c ∧
          obj.points = approxFn c (0.015 * arcLengthClosed c) ∧
          obj.edges = buildEdges obj.points ∧
          (obj.points = c →
            obj.perimeter = (obj.edges.map Edge.pixelLength).sum)) ∧
    (∀ (c approx : List Point) (i objCount now : Nat),
      (utilsObject c approx i objCount now).perimeter
        = ((utilsObject c approx i objCount now).edges.map
            Edge.pixelLength).sum) := by
  constructor
  · intro approxFn contours W H now obj hmem
    rcases detectLoop_mem W H now approxFn contours [] 0 obj hmem with
      h | ⟨c, hc, hp, hpts, hedges⟩
    · simp at h
    · refine ⟨c, hc, hp, hpts, hedges, fun hpc => ?_⟩
      rw [hp, hedges, hpc, ← arcLength_eq_edge_sum]
  · intro c approx i objCount now
    rfl

/-- Witness for C4's amended theorem: the big square accepted by the pass
with the identity simplification. -/
theorem detectContours_perimeter_spec_witness :
    ∃ obj : DetectedObject,
      obj ∈ detectContoursPure idApprox [bigSquare] 2000 2000 0 ∧
      ∃ c ∈ [bigSquare],
        obj.perimeter = arcLengthClosed c ∧
        obj.points = idApprox c (0.015 * arcLengthClosed c) ∧
        obj.edges = buildEdges obj.points ∧
        (obj.points = c →
          obj.perimeter = (obj.edges.map Edge.pixelLength).sum) := by
  obtain ⟨obj, hout⟩ := bigSquare_run
  have hmem : obj ∈ detectContoursPure idApprox [bigSquare] 2000 2000 0 := by
    rw [hout]
    exact List.mem_singleton_self obj
  exact ⟨obj, hmem,
    detectContours_perimeter_spec.1 idApprox [bigSquare] 2000 2000 0 obj hmem⟩

end BOB
